/-
Verification of the compliance-operator-dashboard orchestration core.

This file gives a shallow embedding, in Lean 4, of the core components of the
repository:

  * the remediation engine (internal/compliance/remediation.go),
  * the install/uninstall orchestrator (internal/compliance/operator.go),
  * the WebSocket broadcast hub and the Kubernetes watch bridge (package ws),

and proves the behavioural properties stated about them.  Pure Go functions
become Lean functions over explicit inputs; interactions with the external
control plane (the Kubernetes API) are modelled by environment records that
fix the outcome of every control-plane call a run performs, and functions
additionally return the trace of control-plane actions they issue and the
progress records they send, so that frame and ordering properties can be
stated.
-/
import Mathlib

set_option linter.unusedVariables false

namespace ComplianceDashboard

/-! ## Go string primitives

Byte-wise string comparison and substring containment, as used by the Go
standard library (`strings.Contains`, `<`/`>=` on strings).  For the ASCII
strings this program compares, byte-wise order and codepoint order agree. -/

/-- Go `a < b` on strings: lexicographic comparison, modelled on the
codepoint lists. -/
def goLtChars : List Char → List Char → Bool
  | [], [] => false
  | [], _ :: _ => true
  | _ :: _, [] => false
  | a :: as, b :: bs => if a < b then true else if b < a then false else goLtChars as bs

/-- Go `a < b` on strings. -/
def goLt (a b : String) : Bool := goLtChars a.data b.data

/-- Whether `sub` is a prefix of `s`, on codepoint lists. -/
def isPrefixOfChars : List Char → List Char → Bool
  | [], _ => true
  | _ :: _, [] => false
  | a :: as, b :: bs => if a = b then isPrefixOfChars as bs else false

/-- Whether `sub` occurs (contiguously) inside a codepoint list. -/
def hasInfixChars (sub : List Char) : List Char → Bool
  | [] => isPrefixOfChars sub []
  | c :: rest => isPrefixOfChars sub (c :: rest) || hasInfixChars sub rest

/-- Go `strings.Contains s sub`. -/
def goContains (s sub : String) : Bool := hasInfixChars sub.data s.data

/-- The characters of a string up to (excluding) the first `'.'`; this is the
first component of Go `strings.SplitN s "." 2`. -/
def takeUntilDot : List Char → List Char
  | [] => []
  | c :: cs => if c = '.' then [] else c :: takeUntilDot cs

/-- Go `strings.ToLower`, character by character. -/
def toLowerChars : List Char → List Char
  | [] => []
  | c :: cs => c.toLower :: toLowerChars cs

/-! ## Unstructured objects

A model of Kubernetes `unstructured` JSON objects, with the accessors the
program uses (`unstructured.NestedString`, `NestedMap`, `SetNestedField`).
Objects are ordered association lists of fields. -/

/-- A JSON value, as carried by `unstructured.Unstructured`. -/
inductive JValue where
  | null
  | bool (b : Bool)
  | num (n : Int)
  | str (s : String)
  | arr (elems : List JValue)
  | obj (fields : List (String × JValue))

/-- Association-list lookup of a field (Go map indexing, first binding wins;
our objects are field lists, duplicate keys never arise from `setField`). -/
def lookupField : List (String × JValue) → String → Option JValue
  | [], _ => none
  | (k', v') :: rest, k => if k' = k then some v' else lookupField rest k

/-- Replace the binding for `k` (or append it) in a field list
(Go map assignment). -/
def setField : List (String × JValue) → String → JValue → List (String × JValue)
  | [], k, v => [(k, v)]
  | (k', v') :: rest, k, v =>
      if k' = k then (k, v) :: rest else (k', v') :: setField rest k v

/-- `unstructured.NestedFieldNoCopy`: walk a path of map keys. -/
def nestedField : JValue → List String → Option JValue
  | v, [] => some v
  | .obj fs, k :: ks =>
      match lookupField fs k with
      | some v => nestedField v ks
      | none => none
  | _, _ :: _ => none

/-- `unstructured.NestedString` with the `found`/`err` results discarded
(as the watcher and `GetStatus` do): the string value at the path, or `""`
when the path is absent or the value is not a string. -/
def nestedString (v : JValue) (path : List String) : String :=
  match nestedField v path with
  | some (.str s) => s
  | _ => ""

/-- `unstructured.SetNestedField`: walk the path creating intermediate maps,
failing (like the Go version's error) when an intermediate value exists and
is not a map. -/
def setNestedField : JValue → List String → JValue → Option JValue
  | _, [], v => some v
  | .obj fs, k :: ks, v =>
      match setNestedField ((lookupField fs k).getD (.obj [])) ks v with
      | some v' => some (.obj (setField fs k v'))
      | none => none
  | _, _ :: _, _ => none

theorem lookupField_setField (fs : List (String × JValue)) (k : String) (v : JValue) :
    lookupField (setField fs k v) k = some v := by
  induction fs with
  | nil => simp [setField, lookupField]
  | cons hd tl ih =>
      obtain ⟨k', v'⟩ := hd
      by_cases h : k' = k <;> simp [setField, lookupField, h, ih]

theorem nestedField_setNestedField (v new : JValue) (path : List String) (v' : JValue)
    (h : setNestedField v path new = some v') : nestedField v' path = some new := by
  induction path generalizing v v' with
  | nil =>
      simp [setNestedField] at h
      simp [← h, nestedField]
  | cons k ks ih =>
      cases v with
      | obj fs =>
          simp only [setNestedField] at h
          cases hrec : setNestedField ((lookupField fs k).getD (.obj [])) ks new with
          | none => rw [hrec] at h; exact absurd h (by simp)
          | some w =>
              rw [hrec] at h
              simp only [Option.some.injEq] at h
              subst h
              simpa [nestedField, lookupField_setField] using ih _ _ hrec
      | null => exact absurd h (by simp [setNestedField])
      | bool b => exact absurd h (by simp [setNestedField])
      | num n => exact absurd h (by simp [setNestedField])
      | str s => exact absurd h (by simp [setNestedField])
      | arr xs => exact absurd h (by simp [setNestedField])

/-! ## GVR resolution (remediation.go `resolveGVR`) -/

/-- `schema.GroupVersionResource`. -/
structure GroupVersionResource where
  group : String
  version : String
  resource : String
deriving DecidableEq, Repr

/-- `resolveGVR kind apiVersion defaultNamespace` from remediation.go:
split the apiVersion into group/version, map known kinds to their resource
names (cluster-scoped kinds get the empty namespace), and fall back to
`strings.ToLower(kind) + "s"` in the default namespace for unmapped kinds. -/
def resolveGVR (kind apiVersion defaultNamespace : String) :
    GroupVersionResource × String :=
  let parts := apiVersion.data
  let group := if parts.contains '/' then String.mk (takeUntilSlash parts) else ""
  let version := if parts.contains '/' then String.mk (dropThroughSlash parts) else apiVersion
  match kind with
  | "MachineConfig" =>
      (⟨"machineconfiguration.openshift.io", "v1", "machineconfigs"⟩, "")
  | "APIServer" =>
      (⟨"config.openshift.io", "v1", "apiservers"⟩, "")
  | "KubeletConfig" =>
      (⟨"machineconfiguration.openshift.io", "v1", "kubeletconfigs"⟩, "")
  | "IngressController" =>
      (⟨"operator.openshift.io", "v1", "ingresscontrollers"⟩, "")
  | "OAuth" =>
      (⟨"config.openshift.io", "v1", "oauths"⟩, "")
  | "ConfigMap" =>
      (⟨group, version, "configmaps"⟩, defaultNamespace)
  | "Secret" =>
      (⟨group, version, "secrets"⟩, defaultNamespace)
  | _ =>
      (⟨group, version, String.mk (toLowerChars kind.data) ++ "s"⟩, defaultNamespace)
where
  /-- characters before the first `'/'` (Go `strings.SplitN(apiVersion, "/", 2)[0]`). -/
  takeUntilSlash : List Char → List Char
    | [] => []
    | c :: cs => if c = '/' then [] else c :: takeUntilSlash cs
  /-- characters after the first `'/'` (Go `strings.SplitN(apiVersion, "/", 2)[1]`). -/
  dropThroughSlash : List Char → List Char
    | [] => []
    | c :: cs => if c = '/' then cs else dropThroughSlash cs

/-! ## Marketplace health (operator.go `CheckMarketplaceHealth`)

The function reads the `openshift-marketplace` namespace and lists its pods;
the outcomes of these control-plane reads are the inputs of the model. -/

/-- The error states checked against each waiting container. -/
def errorStates : List String :=
  ["ImagePullBackOff", "ErrImagePull", "CrashLoopBackOff",
   "CreateContainerConfigError", "InvalidImageName"]

/-- A pod in the marketplace namespace: its name, phase, and the waiting
reasons of its containers (one per container whose `State.Waiting` is set). -/
structure MktPod where
  name : String
  phase : String
  waitingReasons : List String

/-- The control-plane reads `CheckMarketplaceHealth` performs. -/
structure MktEnv where
  nsGetErr : Option String
  podsListErr : Option String
  pods : List MktPod

/-- The error reported for one pod, if any: pods in `Succeeded`/`Running`
phase are skipped, otherwise the first waiting reason matching a known error
state is reported. -/
def podErrorState (p : MktPod) : Option String :=
  if p.phase = "Succeeded" ∨ p.phase = "Running" then none
  else p.waitingReasons.findSome? fun r =>
    if errorStates.contains r then some ("pod " ++ p.name ++ " in error state: " ++ r)
    else none

/-- `CheckMarketplaceHealth` for a non-nil client: `some errMsg` on failure,
`none` when the marketplace is healthy. -/
def checkMarketplaceHealth (m : MktEnv) : Option String :=
  match m.nsGetErr with
  | some e => some ("namespace openshift-marketplace not found: " ++ e)
  | none =>
    match m.podsListErr with
    | some e => some ("listing pods in openshift-marketplace: " ++ e)
    | none => m.pods.findSome? podErrorState

/-! ## ARM compatibility (operator.go `CheckARMCompatibility`)

The cluster's nodes are given by the list of their architecture strings.
The version comparison is the one the Go code performs: the minor component
is compared as a *string* (`minor >= "0" && minor < "7"`). -/

/-- `CheckARMCompatibility` for a non-nil client and a successful node list:
returns (number of arm64 nodes, compatible). -/
def checkARMCompatibility (archs : List String) (coRef : String) : Nat × Bool :=
  let armNodes := (archs.filter fun a => a = "arm64").length
  if armNodes = 0 then (0, true)
  else if isPrefixOfChars "v1.".data coRef.data then
    let minor := String.mk (takeUntilDot (coRef.data.drop 3))
    if ¬ goLt minor "0" ∧ goLt minor "7" then (armNodes, false)
    else (armNodes, true)
  else (armNodes, true)

/-! ## Watch bridge data extraction (package ws, `extractRelevantData`) -/

/-- `extractRelevantData`: the small kind-specific projection broadcast with
each watch event.  For `ComplianceRemediation`, `applied` is the comparison
of the *string* read of `spec.apply` against `"true"`. -/
def extractRelevantData (resourceType : String) (obj : JValue) :
    List (String × JValue) :=
  match resourceType with
  | "ComplianceCheckResult" =>
      [("status", .str (nestedString obj ["status"])),
       ("severity", .str (nestedString obj ["severity"])),
       ("description", .str (nestedString obj ["description"]))]
  | "ComplianceRemediation" =>
      let kind := nestedString obj ["spec", "current", "object", "kind"]
      let apply := nestedString obj ["spec", "apply"]
      [("kind", .str kind), ("applied", .bool (apply = "true"))]
  | "ComplianceSuite" =>
      [("phase", .str (nestedString obj ["status", "phase"])),
       ("result", .str (nestedString obj ["status", "result"]))]
  | "ComplianceScan" =>
      [("phase", .str (nestedString obj ["status", "phase"])),
       ("result", .str (nestedString obj ["status", "result"]))]
  | _ => []

/-- The write `ApplyRemediation` performs on the ComplianceRemediation CR
after a successful apply (remediation.go:108): set `spec.apply` to the JSON
boolean `true`. -/
def applyMarkApplied (rem : JValue) : Option JValue :=
  setNestedField rem ["spec", "apply"] (.bool true)

/-! ## Watch bridge backoff (package ws, `Watcher.watchResource`)

One iteration of the per-resource retry loop, in seconds.  On an open
failure classified as "CRD not found" the backoff is set to 60 before
sleeping; any failure sleeps the current backoff, then doubles it, capped at
60; a successful open sleeps nothing and resets the backoff to 1 second. -/

/-- The outcome of one attempt to open the watch. -/
inductive WatchOutcome where
  | crdNotFound
  | otherFailure
  | success
deriving DecidableEq, Repr

/-- The base retry interval (`backoff := time.Second`), in seconds. -/
def watchBackoffBase : Nat := 1

/-- The backoff cap (60 seconds). -/
def watchBackoffCap : Nat := 60

/-- One loop iteration: the sleep performed (none on success) and the next
backoff value. -/
def watchStep (backoff : Nat) (o : WatchOutcome) : Option Nat × Nat :=
  match o with
  | .success => (none, watchBackoffBase)
  | _ =>
    let b1 := if o = .crdNotFound then watchBackoffCap else backoff
    let b2 := b1 * 2
    let b3 := if b2 > watchBackoffCap then watchBackoffCap else b2
    (some b1, b3)

/-- The sequence of sleep intervals performed for a sequence of open
outcomes, starting from backoff `b`. -/
def watchSleeps (b : Nat) : List WatchOutcome → List Nat
  | [] => []
  | o :: os =>
    match watchStep b o with
    | (some d, b') => d :: watchSleeps b' os
    | (none, b') => watchSleeps b' os

/-! ## Broadcast hub (package ws, `Hub.Run` broadcast case)

The hub's state is its registry of clients.  Modelled from the spec: the
`Client` struct (its source file is not in the repository snapshot) is an
observer with an outbound ordered queue of serialized messages of bounded
capacity — exactly the buffered `send` channel the hub writes to with a
non-blocking send.  The broadcast case of `Hub.Run` serializes the message
once and attempts a non-blocking enqueue on every registered client; a
client whose queue is full is handed to the unregister path instead. -/

/-- A WebSocket message envelope (`ws.Message`), with the payload already a
JSON value. -/
structure WsMessage where
  type : String
  payload : JValue

/-- JSON string escaping of quotes and backslashes. -/
def escapeChars : List Char → String
  | [] => ""
  | c :: cs =>
      (if c = '"' then "\\\"" else if c = '\\' then "\\\\" else String.mk [c]) ++
      escapeChars cs

mutual

/-- JSON serialization of a value (`json.Marshal`). -/
def serializeJValue : JValue → String
  | .null => "null"
  | .bool b => if b then "true" else "false"
  | .num n => toString n
  | .str s => "\"" ++ escapeChars s.data ++ "\""
  | .arr xs => "[" ++ serializeElems xs ++ "]"
  | .obj fs => "\x7b" ++ serializeFields fs ++ "\x7d"

/-- Comma-separated serialization of array elements. -/
def serializeElems : List JValue → String
  | [] => ""
  | [v] => serializeJValue v
  | v :: rest => serializeJValue v ++ "," ++ serializeElems rest

/-- Comma-separated serialization of object fields. -/
def serializeFields : List (String × JValue) → String
  | [] => ""
  | [(k, v)] => "\"" ++ escapeChars k.data ++ "\":" ++ serializeJValue v
  | (k, v) :: rest =>
      "\"" ++ escapeChars k.data ++ "\":" ++ serializeJValue v ++ "," ++
        serializeFields rest

end

/-- `json.Marshal` of the message envelope. -/
def serializeMessage (m : WsMessage) : String :=
  serializeJValue (.obj [("type", .str m.type), ("payload", m.payload)])

/-- Modelled from the spec: a connected observer (`ws.Client`) — an id, the
capacity of its outbound queue, and the queue of already-enqueued serialized
messages, oldest first. -/
structure WsClient where
  id : Nat
  cap : Nat
  send : List String
deriving DecidableEq, Repr

/-- The hub's registry together with the clients handed to the unregister
path because their queue was full. -/
structure HubState where
  clients : List WsClient
  pendingUnregister : List Nat
deriving DecidableEq, Repr

/-- The non-blocking channel send (`select \x7b case client.send <- data:
default: ... \x7d`): enqueue if the buffer has room, otherwise leave the
queue untouched and report overflow. -/
def trySend (data : String) (c : WsClient) : WsClient × Bool :=
  if c.send.length < c.cap then ({ c with send := c.send ++ [data] }, false)
  else (c, true)

/-- The broadcast case of `Hub.Run`: serialize once, attempt delivery to
every registered client, and schedule every overflowing client for
unregistration. -/
def hubBroadcast (m : WsMessage) (s : HubState) : HubState :=
  let data := serializeMessage m
  { clients := s.clients.map fun c => (trySend data c).1
    pendingUnregister :=
      s.pendingUnregister ++
        ((s.clients.filter fun c => (trySend data c).2).map fun c => c.id) }

/-- A sequence of broadcasts, processed by the hub loop oldest first. -/
def hubBroadcastAll : List WsMessage → HubState → HubState
  | [], s => s
  | m :: rest, s => hubBroadcastAll rest (hubBroadcast m s)

/-! ## Remediation engine (remediation.go) -/

/-- `RemediationResult`. -/
structure RemediationResult where
  name : String
  applied : Bool
  message : String
  error : String
deriving DecidableEq, Repr

/-- The control-plane outcomes one `RemoveRemediation` call observes. -/
structure RemoveEnv where
  namespace_ : String
  name : String
  /-- result of `Get` on the ComplianceRemediation CR -/
  remGet : Except String JValue
  /-- error of the `Delete` call on the target object, if it fails -/
  deleteErr : Option String

/-- `RemoveRemediation` for a non-nil client: the `RemediationResult` and
the Go error return. -/
def removeRemediation (env : RemoveEnv) : RemediationResult × Option String :=
  match env.remGet with
  | .error e =>
      (⟨env.name, false, "", "getting remediation: " ++ e⟩,
       some ("getting remediation " ++ env.name ++ ": " ++ e))
  | .ok rem =>
    match nestedField rem ["spec", "current", "object"] with
    | some (.obj fs) =>
      let remObj : JValue := .obj fs
      let kind := nestedString remObj ["kind"]
      let apiVersion := nestedString remObj ["apiVersion"]
      if kind = "" ∨ apiVersion = "" then
        (⟨env.name, false, "", "remediation object missing kind or apiVersion"⟩,
         some ("remediation " ++ env.name ++ " object missing kind or apiVersion"))
      else
        let resolved := resolveGVR kind apiVersion env.namespace_
        let objNamespace :=
          let own := nestedString remObj ["metadata", "namespace"]
          if own ≠ "" then own else resolved.2
        let objName :=
          let own := nestedString remObj ["metadata", "name"]
          if own = "" then env.name else own
        match env.deleteErr with
        | some e =>
            if goContains e "not found" then
              (⟨env.name, false,
                "Object " ++ kind ++ " " ++ objName ++ " was already removed", ""⟩,
               none)
            else
              (⟨env.name, false, "", "deleting object: " ++ e⟩,
               some ("removing remediation " ++ env.name ++ ": " ++ e))
        | none =>
            (⟨env.name, false, "Removed " ++ kind ++ " " ++ objName, ""⟩, none)
    | _ =>
        (⟨env.name, false, "", "remediation has no spec.current.object"⟩,
         some ("remediation " ++ env.name ++ " has no spec.current.object"))

/-! ## Severity-scoped batch apply (remediation.go `ApplyBySeverity`)

The listed remediations are the `RemediationInfo` values returned by
`ListRemediations`; the loop skips entries of the wrong severity, attempts
`ApplyRemediation` on the rest, and after every attempt on a `MachineConfig`
item (successful or not) calls `waitForMCPReconciliation` before moving on. -/

/-- `RemediationInfo` (types.go), the fields the loop reads. -/
structure RemediationInfo where
  name : String
  kind : String
  severity : String
  role : String
deriving DecidableEq, Repr

/-- `waitForMCPReconciliation` waits at most 10 minutes. -/
def mcpWaitTimeoutSec : Nat := 600

/-- `waitForMCPReconciliation` polls every 30 seconds. -/
def mcpWaitPollSec : Nat := 30

/-- An externally observable action of the batch-apply loop. -/
inductive BatchAction where
  /-- a call to `ApplyRemediation` for the named remediation of this kind -/
  | applyAttempt (name kind : String)
  /-- a call to `waitForMCPReconciliation` for this role, bounded by the
  given timeout and poll interval in seconds; it returns without error even
  on timeout -/
  | mcpWait (role : String) (timeoutSec pollSec : Nat)
deriving DecidableEq, Repr

/-- The action trace of `ApplyBySeverity` over the listed remediations.
Whether an attempt succeeds or fails does not change the trace: the
MachineConfig pool wait runs in both branches. -/
def applyBySeverityActions (severity : String) : List RemediationInfo → List BatchAction
  | [] => []
  | r :: rest =>
      if r.severity ≠ severity then applyBySeverityActions severity rest
      else
        .applyAttempt r.name r.kind ::
          ((if r.kind = "MachineConfig" then
              [.mcpWait r.role mcpWaitTimeoutSec mcpWaitPollSec]
            else []) ++
            applyBySeverityActions severity rest)

/-- The name attempted by an action, if it is an apply attempt. -/
def attemptName : BatchAction → Option String
  | .applyAttempt n _ => some n
  | _ => none

/-! ## Install/uninstall orchestrator (operator.go `Install`, `Uninstall`)

The progress channel is modelled as the list of records sent on it, in
order, and the control-plane calls a run issues as a list of actions.  The
polling waits (`waitForCSV`, `waitForPodsReady`, `waitForProfileBundles`)
are abstracted by their outcomes, which the environment record fixes. -/

/-- `InstallProgress` (types.go): one record sent on the progress channel. -/
structure InstallProgress where
  step : String
  message : String
  done : Bool
  error : String
deriving DecidableEq, Repr

/-- `sendProgress`: a non-terminal record. -/
def sendProgressRec (step message : String) : InstallProgress :=
  ⟨step, message, false, ""⟩

/-- `sendError`: a terminal record with `Error = Message` and `Done = true`. -/
def sendErrorRec (step message : String) : InstallProgress :=
  ⟨step, message, true, message⟩

/-- `sendDone`: a terminal success record. -/
def sendDoneRec (step message : String) : InstallProgress :=
  ⟨step, message, true, ""⟩

/-- The pattern `if err != nil && !strings.Contains(err.Error(), "already
exists") \x7b return wrapped err \x7d`: tolerate "already exists", wrap
anything else. -/
def tolerateAlreadyExists (err : Option String) (wrap : String) : Option String :=
  match err with
  | some m => if goContains m "already exists" then none else some (wrap ++ m)
  | none => none

/-- A control-plane call issued by an install run. -/
inductive IAction where
  | getNamespace (name : String)
  | listPods (namespace_ : String)
  | listNodes
  | createNamespace (name : String)
  | getCatalogSource (name : String)
  | getPackageManifest (name : String)
  | createCatalogSource
  | createOperatorGroup
  | createSubscription
  | pollForCSV
  | createRole
  | createRoleBinding
  | pollForPodsReady
  | pollForProfileBundles
deriving DecidableEq, Repr

/-- The control-plane reads of `CheckMarketplaceHealth`, in call order. -/
def mktActions (m : MktEnv) : List IAction :=
  .getNamespace "openshift-marketplace" ::
    (match m.nsGetErr with
     | some _ => []
     | none => [.listPods "openshift-marketplace"])

/-- The dynamic-client reads `CheckRedHatOperator` performs. -/
structure RedHatProbeEnv where
  /-- the `redhat-operators` CatalogSource `Get` failed -/
  catalogSourceMissing : Bool
  /-- the `compliance-operator` PackageManifest, `none` when its `Get` failed -/
  packageManifest : Option JValue

/-- `CheckRedHatOperator` for a non-nil client (its error return is always
nil then): whether the certified operator is available, and the reads
performed. -/
def checkRedHatOperator (e : RedHatProbeEnv) : Bool × List IAction :=
  if e.catalogSourceMissing then (false, [.getCatalogSource "redhat-operators"])
  else
    match e.packageManifest with
    | none =>
        (false,
         [.getCatalogSource "redhat-operators", .getPackageManifest "compliance-operator"])
    | some pm =>
        (nestedString pm ["status", "catalogSource"] = "redhat-operators",
         [.getCatalogSource "redhat-operators", .getPackageManifest "compliance-operator"])

/-- The create outcomes `installRedHatOperator` observes. -/
structure RedHatCreateEnv where
  operatorGroupErr : Option String
  subscriptionErr : Option String

/-- `installRedHatOperator`: OperatorGroup then Subscription, each create
tolerating "already exists". -/
def installRedHatOperator (e : RedHatCreateEnv) : Option String × List IAction :=
  match tolerateAlreadyExists e.operatorGroupErr "creating OperatorGroup: " with
  | some m => (some m, [.createOperatorGroup])
  | none =>
      (tolerateAlreadyExists e.subscriptionErr "creating Subscription: ",
       [.createOperatorGroup, .createSubscription])

/-- The create outcomes `installCommunityOperator` observes. -/
structure CommunityCreateEnv where
  catalogSourceErr : Option String
  operatorGroupErr : Option String
  subscriptionErr : Option String

/-- `installCommunityOperator`: CatalogSource, OperatorGroup, Subscription,
each create tolerating "already exists". -/
def installCommunityOperator (e : CommunityCreateEnv) : Option String × List IAction :=
  match tolerateAlreadyExists e.catalogSourceErr "creating CatalogSource: " with
  | some m => (some m, [.createCatalogSource])
  | none =>
      match tolerateAlreadyExists e.operatorGroupErr "creating OperatorGroup: " with
      | some m => (some m, [.createCatalogSource, .createOperatorGroup])
      | none =>
          (tolerateAlreadyExists e.subscriptionErr "creating Subscription: ",
           [.createCatalogSource, .createOperatorGroup, .createSubscription])

/-- The create outcomes `applySupplementalRBAC` observes. -/
structure RBACEnv where
  roleErr : Option String
  roleBindingErr : Option String

/-- `applySupplementalRBAC`: Role then RoleBinding, each create tolerating
"already exists". -/
def applySupplementalRBAC (e : RBACEnv) : Option String × List IAction :=
  match tolerateAlreadyExists e.roleErr "creating Role: " with
  | some m => (some m, [.createRole])
  | none =>
      (tolerateAlreadyExists e.roleBindingErr "creating RoleBinding: ",
       [.createRole, .createRoleBinding])

/-- The namespace create with "already exists" tolerated (operator.go:249). -/
def nsCreateFailure (err : Option String) : Option String :=
  match err with
  | some e => if goContains e "already exists" then none else some e
  | none => none

/-- Everything one `Install` run observes from outside. -/
structure InstallEnv where
  namespace_ : String
  /-- the requested version ref; `""` means resolve the latest release -/
  coRef : String
  clientNil : Bool
  mkt : MktEnv
  /-- result of `GetLatestRelease` (only consulted when `coRef = ""`) -/
  latestRelease : Except String String
  /-- the architectures of the listed nodes, or the node-list error -/
  nodeArchs : Except String (List String)
  nsCreateErr : Option String
  redHatProbe : RedHatProbeEnv
  redHatCreate : RedHatCreateEnv
  communityCreate : CommunityCreateEnv
  /-- outcome of the `waitForCSV` poll loop: the CSV name, or its error -/
  csvResult : Except String String
  rbac : RBACEnv
  /-- outcome of the `waitForPodsReady` poll loop (log-only) -/
  podsWaitErr : Option String
  /-- outcome of the `waitForProfileBundles` poll loop (log-only) -/
  bundlesWaitErr : Option String

/-- The ref actually installed: the requested one, else the latest release,
falling back to `master` when the lookup fails (operator.go:215-223). -/
def resolvedRef (env : InstallEnv) : String :=
  if env.coRef = "" then
    match env.latestRelease with
    | .ok tag => tag
    | .error _ => "master"
  else env.coRef

/-- Steps 7-10 of `Install` (CSV wait, supplemental RBAC, pod readiness,
profile bundles, completion), shared by both install sources.  RBAC, pod and
bundle failures are only logged (operator.go:288-304). -/
def installTail (env : InstallEnv) (ps : List InstallProgress) (acts : List IAction) :
    List InstallProgress × List IAction :=
  let ps7 := ps ++ [sendProgressRec "csv" "Waiting for ClusterServiceVersion..."]
  let a5 := acts ++ [IAction.pollForCSV]
  match env.csvResult with
  | .error e => (ps7 ++ [sendErrorRec "csv" ("CSV wait failed: " ++ e)], a5)
  | .ok csvName =>
    let ps8 := ps7 ++
      [sendProgressRec "csv" ("CSV " ++ csvName ++ " succeeded"),
       sendProgressRec "rbac" "Applying supplemental RBAC for Job creation..."]
    let a6 := a5 ++ (applySupplementalRBAC env.rbac).2
    let ps9 := ps8 ++
      [sendProgressRec "rbac" "Supplemental RBAC applied",
       sendProgressRec "pods" "Waiting for operator pods to be ready..."]
    let a7 := a6 ++ [IAction.pollForPodsReady]
    let ps10 := ps9 ++
      [sendProgressRec "pods" "Operator pods are ready",
       sendProgressRec "bundles" "Waiting for ProfileBundles to become VALID..."]
    let a8 := a7 ++ [IAction.pollForProfileBundles]
    (ps10 ++ [sendDoneRec "complete" "Compliance Operator installed successfully"], a8)

/-- `Install`: the records sent on the progress channel (in order, the
channel being closed after the last) and the control-plane calls issued. -/
def installRun (env : InstallEnv) : List InstallProgress × List IAction :=
  if env.clientNil then
    ([sendErrorRec "init" "Kubernetes client is not connected"], [])
  else
    let ps0 := [sendProgressRec "marketplace" "Checking marketplace health..."]
    let a0 := mktActions env.mkt
    match checkMarketplaceHealth env.mkt with
    | some e =>
        (ps0 ++ [sendErrorRec "marketplace" ("Marketplace health check failed: " ++ e)], a0)
    | none =>
      let ps1 := ps0 ++ [sendProgressRec "marketplace" "Marketplace is healthy"]
      let ref := resolvedRef env
      let ps2 := ps1 ++
        (if env.coRef = "" then
           [sendProgressRec "version" "Resolving latest release from GitHub..."]
         else []) ++
        [sendProgressRec "version" ("Using Compliance Operator ref: " ++ ref)]
      let ps3 := ps2 ++ [sendProgressRec "arch" "Checking cluster architecture..."]
      let a1 := a0 ++ [IAction.listNodes]
      match env.nodeArchs with
      | .error e =>
          (ps3 ++ [sendErrorRec "arch" ("Architecture check failed: listing nodes: " ++ e)], a1)
      | .ok archs =>
        let arm := checkARMCompatibility archs ref
        if arm.2 = false then
          (ps3 ++ [sendErrorRec "arch"
            ("Version " ++ ref ++ " does not support ARM64 (" ++ toString arm.1 ++
             " ARM nodes detected). Use v1.7.0+.")], a1)
        else
          let ps4 := ps3 ++
            [if arm.1 > 0 then
               sendProgressRec "arch" ("ARM64 compatible (" ++ toString arm.1 ++ " ARM nodes)")
             else sendProgressRec "arch" "x86_64 cluster detected"]
          let ps5 := ps4 ++
            [sendProgressRec "namespace" ("Creating namespace " ++ env.namespace_ ++ "...")]
          let a2 := a1 ++ [IAction.createNamespace env.namespace_]
          match nsCreateFailure env.nsCreateErr with
          | some e =>
              (ps5 ++ [sendErrorRec "namespace" ("Failed to create namespace: " ++ e)], a2)
          | none =>
            let ps6 := ps5 ++
              [sendProgressRec "namespace" ("Namespace " ++ env.namespace_ ++ " ready"),
               sendProgressRec "source" "Checking for Red Hat certified operator..."]
            let probe := checkRedHatOperator env.redHatProbe
            let a3 := a2 ++ probe.2
            if probe.1 then
              let ps7 := ps6 ++
                [sendProgressRec "install" "Installing Red Hat certified Compliance Operator..."]
              let inst := installRedHatOperator env.redHatCreate
              let a4 := a3 ++ inst.2
              match inst.1 with
              | some e =>
                  (ps7 ++ [sendErrorRec "install" ("Red Hat operator install failed: " ++ e)], a4)
              | none => installTail env ps7 a4
            else
              let ps7 := ps6 ++
                [sendProgressRec "install" "Installing community Compliance Operator..."]
              let inst := installCommunityOperator env.communityCreate
              let a4 := a3 ++ inst.2
              match inst.1 with
              | some e =>
                  (ps7 ++ [sendErrorRec "install" ("Community operator install failed: " ++ e)], a4)
              | none => installTail env ps7 a4

/-- Whether an install run takes a terminal-error exit: the conditions of
the fail-fast steps 1-7, in order.  Steps 8-10 (RBAC, pods, bundles) never
fail the run. -/
def installFailed (env : InstallEnv) : Bool :=
  if env.clientNil then true
  else
    match checkMarketplaceHealth env.mkt with
    | some _ => true
    | none =>
      match env.nodeArchs with
      | .error _ => true
      | .ok archs =>
        if (checkARMCompatibility archs (resolvedRef env)).2 = false then true
        else
          match nsCreateFailure env.nsCreateErr with
          | some _ => true
          | none =>
            let instErr :=
              if (checkRedHatOperator env.redHatProbe).1 then
                (installRedHatOperator env.redHatCreate).1
              else (installCommunityOperator env.communityCreate).1
            match instErr with
            | some _ => true
            | none =>
              match env.csvResult with
              | .error _ => true
              | .ok _ => false

/-- Outcome of the namespace-deletion wait loop in `Uninstall`
(operator.go:413-424): the namespace disappeared within the 30 attempts,
the context was cancelled during a wait, or all 30 attempts still saw it
(the loop then falls through without error). -/
inductive NsWaitOutcome where
  | gone
  | cancelled
  | exhausted
deriving DecidableEq, Repr

/-- The deletion with "not found" tolerated (operator.go:407, 369, 390, 399). -/
def nsDeleteFailure (err : Option String) : Option String :=
  match err with
  | some e => if goContains e "not found" then none else some e
  | none => none

/-- Everything one `Uninstall` run observes from outside.  The per-CRD
cleanup, Subscription/CSV/OperatorGroup/CatalogSource deletions only log
their errors and do not change the record sequence, so their outcomes are
not carried. -/
structure UninstallEnv where
  namespace_ : String
  clientNil : Bool
  nsDeleteErr : Option String
  nsWait : NsWaitOutcome

/-- The fixed ordered list of managed CRD kinds cleaned up first. -/
def uninstallCRDNames : List String :=
  ["ComplianceCheckResults", "ComplianceRemediations", "ComplianceSuites",
   "ComplianceScans", "ScanSettingBindings", "ScanSettings", "ProfileBundles",
   "Profiles"]

/-- `Uninstall`: the records sent on the progress channel, in order. -/
def uninstallRun (env : UninstallEnv) : List InstallProgress :=
  if env.clientNil then [sendErrorRec "init" "Kubernetes client is not connected"]
  else
    let ps0 :=
      (uninstallCRDNames.map fun n => sendProgressRec "cleanup" ("Removing " ++ n ++ "...")) ++
      [sendProgressRec "cleanup" "Compliance resources removed",
       sendProgressRec "subscription" "Deleting Subscription...",
       sendProgressRec "subscription" "Subscription deleted",
       sendProgressRec "csv" "Deleting ClusterServiceVersion...",
       sendProgressRec "csv" "ClusterServiceVersion deleted",
       sendProgressRec "operatorgroup" "Deleting OperatorGroup...",
       sendProgressRec "operatorgroup" "OperatorGroup deleted",
       sendProgressRec "catalogsource" "Deleting CatalogSource...",
       sendProgressRec "catalogsource" "CatalogSource deleted",
       sendProgressRec "namespace" ("Deleting namespace " ++ env.namespace_ ++ "...")]
    match nsDeleteFailure env.nsDeleteErr with
    | some e => ps0 ++ [sendErrorRec "namespace" ("Failed to delete namespace: " ++ e)]
    | none =>
      match env.nsWait with
      | .cancelled => ps0 ++ [sendErrorRec "namespace" "Timed out waiting for namespace deletion"]
      | _ =>
          ps0 ++
            [sendProgressRec "namespace" "Namespace deleted",
             sendDoneRec "complete" "Compliance Operator uninstalled successfully"]

/-- Whether an uninstall run takes a terminal-error exit. -/
def uninstallFailed (env : UninstallEnv) : Bool :=
  if env.clientNil then true
  else
    match nsDeleteFailure env.nsDeleteErr with
    | some _ => true
    | none =>
      match env.nsWait with
      | .cancelled => true
      | _ => false

/-! ## Progress-trace invariants -/

theorem strAppend_ne_empty (s t : String) (h : s ≠ "") : s ++ t ≠ "" := by
  intro hc
  have h2 : (s ++ t).data = [] := by rw [hc]
  rw [String.data_append] at h2
  exact h (String.ext (List.append_eq_nil.mp h2).1)

/-- No record of the list is terminal. -/
def NoDone (ps : List InstallProgress) : Prop := ∀ x ∈ ps, x.done = false

@[simp] theorem sendProgressRec_done (s m : String) : (sendProgressRec s m).done = false := rfl

@[simp] theorem noDone_nil : NoDone [] := fun x hx => absurd hx (List.not_mem_nil x)

@[simp] theorem noDone_cons {r : InstallProgress} {ps : List InstallProgress} :
    NoDone (r :: ps) ↔ r.done = false ∧ NoDone ps := by
  simp [NoDone]

@[simp] theorem noDone_append {a b : List InstallProgress} :
    NoDone (a ++ b) ↔ NoDone a ∧ NoDone b := by
  simp [NoDone, List.mem_append, or_imp, forall_and]

@[simp] theorem noDone_ite {c : Prop} [Decidable c] {a b : List InstallProgress} :
    NoDone (if c then a else b) ↔ if c then NoDone a else NoDone b := by
  split <;> exact Iff.rfl

@[simp] theorem done_ite {c : Prop} [Decidable c] (a b : InstallProgress) :
    (if c then a else b).done = if c then a.done else b.done := by
  split <;> rfl

theorem noDone_map {α : Type} (f : α → InstallProgress) (h : ∀ a, (f a).done = false)
    (l : List α) : NoDone (l.map f) := by
  intro x hx
  obtain ⟨a, -, rfl⟩ := List.mem_map.mp hx
  exact h a

@[simp] theorem noDone_cleanup_map (l : List String) :
    NoDone (l.map fun n => sendProgressRec "cleanup" ("Removing " ++ n ++ "...")) :=
  noDone_map _ (fun _ => rfl) l

/-- The invariant of one orchestrator run's record sequence: exactly one
terminal record, it is the last one sent, and its error is non-empty exactly
when the run failed. -/
def traceTerminates (ps : List InstallProgress) (failed : Bool) : Prop :=
  ps.countP (fun r => r.done) = 1 ∧
  ∃ r, ps.getLast? = some r ∧ r.done = true ∧ (r.error ≠ "" ↔ failed = true)

theorem traceTerminates_append (pre : List InstallProgress) (r : InstallProgress)
    (failed : Bool) (hpre : NoDone pre) (hr : r.done = true)
    (herr : r.error ≠ "" ↔ failed = true) :
    traceTerminates (pre ++ [r]) failed := by
  refine ⟨?_, r, List.getLast?_concat _, hr, herr⟩
  rw [List.countP_append]
  have h1 : pre.countP (fun r => r.done) = 0 := by
    rw [List.countP_eq_zero]
    intro a ha
    simp [hpre a ha]
  simp [h1, hr, List.countP_cons]

theorem installTail_traceTerminates (env : InstallEnv) (ps : List InstallProgress)
    (acts : List IAction) (hps : NoDone ps) :
    traceTerminates (installTail env ps acts).1
      (match env.csvResult with | .error _ => true | .ok _ => false) := by
  rw [installTail]
  cases hcsv : env.csvResult with
  | error e =>
      simp only [hcsv]
      exact traceTerminates_append _ _ _ (by simp [hps]) rfl
        (iff_of_true (strAppend_ne_empty _ _ (by decide)) rfl)
  | ok csvName =>
      simp only [hcsv]
      exact traceTerminates_append _ _ _ (by simp [hps]) rfl
        (iff_of_false (by simp [sendDoneRec]) (by simp))

theorem installRun_traceTerminates (env : InstallEnv) :
    traceTerminates (installRun env).1 (installFailed env) := by
  rw [installRun, installFailed]
  by_cases hc : env.clientNil
  · simp only [hc, if_true]
    exact traceTerminates_append [] _ _ (by simp) rfl
      (iff_of_true (by decide) rfl)
  · simp only [hc, if_false, Bool.false_eq_true, ite_false]
    cases hm : checkMarketplaceHealth env.mkt with
    | some e =>
        simp only
        exact traceTerminates_append _ _ _ (by simp) rfl
          (iff_of_true (strAppend_ne_empty _ _ (by decide)) rfl)
    | none =>
      simp only
      cases hn : env.nodeArchs with
      | error e =>
          simp only
          exact traceTerminates_append _ _ _ (by simp) rfl
            (iff_of_true (strAppend_ne_empty _ _ (by decide)) rfl)
      | ok archs =>
        simp only
        by_cases harm : (checkARMCompatibility archs (resolvedRef env)).2 = false
        · simp only [harm, if_true]
          exact traceTerminates_append _ _ _ (by simp) rfl
            (iff_of_true
              (strAppend_ne_empty _ _ (strAppend_ne_empty _ _
                (strAppend_ne_empty _ _ (strAppend_ne_empty _ _ (by decide))))) rfl)
        · simp only [harm, if_false]
          cases hns : nsCreateFailure env.nsCreateErr with
          | some e =>
              simp only
              exact traceTerminates_append _ _ _ (by simp) rfl
                (iff_of_true (strAppend_ne_empty _ _ (by decide)) rfl)
          | none =>
            simp only
            by_cases hrh : (checkRedHatOperator env.redHatProbe).1
            · simp only [hrh, if_true]
              cases hi : (installRedHatOperator env.redHatCreate).1 with
              | some e =>
                  simp only
                  exact traceTerminates_append _ _ _ (by simp) rfl
                    (iff_of_true (strAppend_ne_empty _ _ (by decide)) rfl)
              | none =>
                  simp only
                  exact installTail_traceTerminates env _ _ (by simp)
            · simp only [hrh, if_false]
              cases hi : (installCommunityOperator env.communityCreate).1 with
              | some e =>
                  simp only
                  exact traceTerminates_append _ _ _ (by simp) rfl
                    (iff_of_true (strAppend_ne_empty _ _ (by decide)) rfl)
              | none =>
                  simp only
                  exact installTail_traceTerminates env _ _ (by simp)

theorem uninstallRun_traceTerminates (env : UninstallEnv) :
    traceTerminates (uninstallRun env) (uninstallFailed env) := by
  rw [uninstallRun, uninstallFailed]
  by_cases hc : env.clientNil
  · simp only [hc, if_true]
    exact traceTerminates_append [] _ _ (by simp) rfl (iff_of_true (by decide) rfl)
  · simp only [hc, if_false, Bool.false_eq_true, ite_false]
    cases hd : nsDeleteFailure env.nsDeleteErr with
    | some e =>
        simp only
        exact traceTerminates_append _ _ _ (by simp) rfl
          (iff_of_true (strAppend_ne_empty _ _ (by decide)) rfl)
    | none =>
      simp only
      cases hw : env.nsWait with
      | cancelled =>
          simp only
          exact traceTerminates_append _ _ _ (by simp) rfl
            (iff_of_true (by decide) rfl)
      | gone =>
          simp only
          rw [show ∀ (a : List InstallProgress) (p d : InstallProgress),
                a ++ [p, d] = (a ++ [p]) ++ [d] from fun a p d => by simp]
          exact traceTerminates_append _ _ _ (by simp) rfl
            (iff_of_false (by simp [sendDoneRec]) (by simp))
      | exhausted =>
          simp only
          rw [show ∀ (a : List InstallProgress) (p d : InstallProgress),
                a ++ [p, d] = (a ++ [p]) ++ [d] from fun a p d => by simp]
          exact traceTerminates_append _ _ _ (by simp) rfl
            (iff_of_false (by simp [sendDoneRec]) (by simp))

/-! ## Claims -/

/-- C1: For every run of Install and every run of Uninstall, the sequence of
InstallProgress records sent on the progress channel contains exactly one
record with done=true, that record is the last one sent before the channel
is closed, and its error field is non-empty if and only if the run failed
(empty on success). -/
theorem install_uninstall_done_record_invariant :
    (∀ env : InstallEnv,
      (installRun env).1.countP (fun r => r.done) = 1 ∧
      ∃ r, ((installRun env).1).getLast? = some r ∧ r.done = true ∧
        (r.error ≠ "" ↔ installFailed env = true)) ∧
    (∀ env : UninstallEnv,
      (uninstallRun env).countP (fun r => r.done) = 1 ∧
      ∃ r, (uninstallRun env).getLast? = some r ∧ r.done = true ∧
        (r.error ≠ "" ↔ uninstallFailed env = true)) :=
  ⟨fun env => installRun_traceTerminates env,
   fun env => uninstallRun_traceTerminates env⟩

/-- A concrete successful install environment. -/
def c1DemoInstallEnv : InstallEnv :=
  { namespace_ := "openshift-compliance"
    coRef := "v1.7.0"
    clientNil := false
    mkt := { nsGetErr := none, podsListErr := none, pods := [] }
    latestRelease := .ok "v1.7.0"
    nodeArchs := .ok ["amd64"]
    nsCreateErr := none
    redHatProbe := { catalogSourceMissing := true, packageManifest := none }
    redHatCreate := { operatorGroupErr := none, subscriptionErr := none }
    communityCreate :=
      { catalogSourceErr := none, operatorGroupErr := none, subscriptionErr := none }
    csvResult := .ok "compliance-operator.v1.7.0"
    rbac := { roleErr := none, roleBindingErr := none }
    podsWaitErr := none
    bundlesWaitErr := none }

/-- A concrete failing uninstall environment (namespace delete fails). -/
def c1DemoUninstallEnv : UninstallEnv :=
  { namespace_ := "openshift-compliance"
    clientNil := false
    nsDeleteErr := some "forbidden"
    nsWait := .gone }

/-- Witness for C1 at concrete install and uninstall environments. -/
theorem install_uninstall_done_record_invariant_witness :
    (installRun c1DemoInstallEnv).1.countP (fun r => r.done) = 1 ∧
    (uninstallRun c1DemoUninstallEnv).countP (fun r => r.done) = 1 :=
  ⟨(install_uninstall_done_record_invariant.1 c1DemoInstallEnv).1,
   (install_uninstall_done_record_invariant.2 c1DemoUninstallEnv).1⟩

/-- C2: For every install run in which the marketplace-health check fails,
Install halts immediately: no namespace-creation request is issued to the
control plane, no later step runs (the progress stream is exactly the
marketplace step's entry record followed by the terminal error record), and
the progress stream ends with exactly one done=true record whose error is
non-empty. -/
theorem install_marketplace_failfast (env : InstallEnv) (e : String)
    (hc : env.clientNil = false)
    (hm : checkMarketplaceHealth env.mkt = some e) :
    (installRun env).1 =
      [sendProgressRec "marketplace" "Checking marketplace health...",
       sendErrorRec "marketplace" ("Marketplace health check failed: " ++ e)] ∧
    (∀ n, IAction.createNamespace n ∉ (installRun env).2) ∧
    (installRun env).1.countP (fun r => r.done) = 1 ∧
    ∃ r, ((installRun env).1).getLast? = some r ∧ r.done = true ∧ r.error ≠ "" := by
  have hrun : installRun env =
      ([sendProgressRec "marketplace" "Checking marketplace health...",
        sendErrorRec "marketplace" ("Marketplace health check failed: " ++ e)],
       mktActions env.mkt) := by
    rw [installRun]
    simp [hc, hm]
  refine ⟨by rw [hrun], ?_, ?_, ?_⟩
  · intro n
    rw [hrun]
    cases h : env.mkt.nsGetErr <;> simp [mktActions, h]
  · rw [hrun]
    simp [List.countP_cons, sendProgressRec, sendErrorRec]
  · refine ⟨sendErrorRec "marketplace" ("Marketplace health check failed: " ++ e),
      by rw [hrun]; rfl, rfl, strAppend_ne_empty _ _ (by decide)⟩

/-- C9: For every install run in which steps 1-7 succeed but the
supplemental-RBAC grant, the pod-readiness wait, or the profile-bundle
validity wait fails or times out, the run does not terminate with an error:
the progress stream still ends with the single done=true completion record
whose error field is empty. -/
theorem install_soft_failure (env : InstallEnv)
    (hc : env.clientNil = false)
    (hm : checkMarketplaceHealth env.mkt = none)
    (harch : ∃ archs, env.nodeArchs = .ok archs ∧
      (checkARMCompatibility archs (resolvedRef env)).2 = true)
    (hns : nsCreateFailure env.nsCreateErr = none)
    (hinst : (if (checkRedHatOperator env.redHatProbe).1 then
        (installRedHatOperator env.redHatCreate).1
      else (installCommunityOperator env.communityCreate).1) = none)
    (hcsv : ∃ n, env.csvResult = .ok n)
    (hsoft : (applySupplementalRBAC env.rbac).1.isSome ∨ env.podsWaitErr.isSome ∨
      env.bundlesWaitErr.isSome) :
    ((installRun env).1).getLast? =
      some (sendDoneRec "complete" "Compliance Operator installed successfully") ∧
    (installRun env).1.countP (fun r => r.done) = 1 ∧
    installFailed env = false := by
  obtain ⟨archs, hn, harm⟩ := harch
  obtain ⟨csvName, hcsvName⟩ := hcsv
  have htail : ∀ (ps : List InstallProgress) (acts : List IAction),
      ((installTail env ps acts).1).getLast? =
        some (sendDoneRec "complete" "Compliance Operator installed successfully") := by
    intro ps acts
    rw [installTail, hcsvName]
    simp only
    exact List.getLast?_concat _
  have hfailed : installFailed env = false := by
    rw [installFailed]
    simp only [hc, Bool.false_eq_true, ite_false]
    rw [hm]
    simp only
    rw [hn]
    simp only
    rw [harm]
    simp only [Bool.true_eq_false, ite_false]
    rw [hns]
    simp only
    by_cases hrh : (checkRedHatOperator env.redHatProbe).1
    · rw [if_pos hrh] at hinst
      simp only [hrh, ite_true, hinst, hcsvName]
    · rw [if_neg hrh] at hinst
      simp only [hrh, Bool.false_eq_true, ite_false, hinst, hcsvName]
  refine ⟨?_, (installRun_traceTerminates env).1, hfailed⟩
  rw [installRun]
  simp only [hc, Bool.false_eq_true, ite_false]
  rw [hm]
  simp only
  rw [hn]
  simp only
  rw [harm]
  simp only [Bool.true_eq_false, ite_false]
  rw [hns]
  simp only
  by_cases hrh : (checkRedHatOperator env.redHatProbe).1
  · rw [if_pos hrh] at hinst
    simp only [hrh, ite_true, hinst]
    exact htail _ _
  · rw [if_neg hrh] at hinst
    simp only [hrh, Bool.false_eq_true, ite_false, hinst]
    exact htail _ _

/-- A concrete install environment whose marketplace-health check fails
(the marketplace namespace read errors). -/
def c2DemoEnv : InstallEnv :=
  { namespace_ := "openshift-compliance"
    coRef := "v1.7.0"
    clientNil := false
    mkt := { nsGetErr := some "boom", podsListErr := none, pods := [] }
    latestRelease := .ok "v1.7.0"
    nodeArchs := .ok ["amd64"]
    nsCreateErr := none
    redHatProbe := { catalogSourceMissing := true, packageManifest := none }
    redHatCreate := { operatorGroupErr := none, subscriptionErr := none }
    communityCreate :=
      { catalogSourceErr := none, operatorGroupErr := none, subscriptionErr := none }
    csvResult := .ok "compliance-operator.v1.7.0"
    rbac := { roleErr := none, roleBindingErr := none }
    podsWaitErr := none
    bundlesWaitErr := none }

/-- Witness for C2: the fail-fast conclusion at a concrete environment whose
marketplace namespace read fails. -/
theorem install_marketplace_failfast_witness :
    (installRun c2DemoEnv).1 =
      [sendProgressRec "marketplace" "Checking marketplace health...",
       sendErrorRec "marketplace"
         ("Marketplace health check failed: " ++
          "namespace openshift-marketplace not found: boom")] ∧
    (∀ n, IAction.createNamespace n ∉ (installRun c2DemoEnv).2) ∧
    (installRun c2DemoEnv).1.countP (fun r => r.done) = 1 ∧
    ∃ r, ((installRun c2DemoEnv).1).getLast? = some r ∧ r.done = true ∧ r.error ≠ "" :=
  install_marketplace_failfast c2DemoEnv
    "namespace openshift-marketplace not found: boom" rfl rfl

/-- A concrete install environment where steps 1-7 succeed but the
pod-readiness wait times out. -/
def c9DemoEnv : InstallEnv :=
  { namespace_ := "openshift-compliance"
    coRef := "v1.7.0"
    clientNil := false
    mkt := { nsGetErr := none, podsListErr := none, pods := [] }
    latestRelease := .ok "v1.7.0"
    nodeArchs := .ok ["amd64"]
    nsCreateErr := none
    redHatProbe := { catalogSourceMissing := true, packageManifest := none }
    redHatCreate := { operatorGroupErr := none, subscriptionErr := none }
    communityCreate :=
      { catalogSourceErr := none, operatorGroupErr := none, subscriptionErr := none }
    csvResult := .ok "compliance-operator.v1.7.0"
    rbac := { roleErr := none, roleBindingErr := none }
    podsWaitErr := some "pods not ready after timeout"
    bundlesWaitErr := none }

/-- Witness for C9: the soft-failure conclusion at a concrete environment
whose pod-readiness wait times out. -/
theorem install_soft_failure_witness :
    ((installRun c9DemoEnv).1).getLast? =
      some (sendDoneRec "complete" "Compliance Operator installed successfully") ∧
    (installRun c9DemoEnv).1.countP (fun r => r.done) = 1 ∧
    installFailed c9DemoEnv = false :=
  install_soft_failure c9DemoEnv rfl rfl ⟨["amd64"], rfl, rfl⟩ rfl rfl
    ⟨"compliance-operator.v1.7.0", rfl⟩ (Or.inr (Or.inl rfl))

/-- C3 (code-bug evidence): `CheckARMCompatibility` compares the minor
version component as a string, so on a cluster with one arm64 node the
two-digit minor `v1.10.0` is reported incompatible (`"10" < "7"`
byte-wise), although the function's own comment says only versions before
v1.7.0 lack ARM64 support.  The remaining conjuncts show the surrounding
behaviour the claim states: `v1.7.0` and `master` compatible, `v1.6.0`
incompatible, and any ref compatible on a cluster with no arm64 node. -/
theorem checkARMCompatibility_eval :
    checkARMCompatibility ["arm64"] "v1.10.0" = (1, false) ∧
    checkARMCompatibility ["arm64"] "v1.7.0" = (1, true) ∧
    checkARMCompatibility ["arm64"] "v1.6.0" = (1, false) ∧
    checkARMCompatibility ["arm64"] "master" = (1, true) ∧
    (∀ ref, checkARMCompatibility [] ref = (0, true)) :=
  ⟨rfl, rfl, rfl, rfl, fun _ => rfl⟩

/-- C4: `resolveGVR` satisfies the spec's three examples: MachineConfig is
cluster-scoped (default namespace ignored), ConfigMap is namespaced under
the default, and the unmapped kind CustomThing falls back to
lowercase(kind)+"s" in the apiVersion's group/version under the default
namespace. -/
theorem resolveGVR_spec_examples :
    resolveGVR "MachineConfig" "machineconfiguration.openshift.io/v1" "ns-x" =
      (⟨"machineconfiguration.openshift.io", "v1", "machineconfigs"⟩, "") ∧
    resolveGVR "ConfigMap" "v1" "ns-x" = (⟨"", "v1", "configmaps"⟩, "ns-x") ∧
    resolveGVR "CustomThing" "example.com/v1beta1" "ns-x" =
      (⟨"example.com", "v1beta1", "customthings"⟩, "ns-x") :=
  ⟨rfl, rfl, by decide⟩

/-! ## Hub fan-out lemmas -/

theorem hubBroadcast_clients_get (m : WsMessage) (s : HubState) (i : Nat) (c : WsClient)
    (hi : s.clients[i]? = some c) :
    (hubBroadcast m s).clients[i]? = some (trySend (serializeMessage m) c).1 := by
  simp [hubBroadcast, List.getElem?_map, hi]

theorem hubBroadcastAll_free_queue (msgs : List WsMessage) :
    ∀ (s : HubState) (i : Nat) (c : WsClient),
      s.clients[i]? = some c → c.send.length + msgs.length ≤ c.cap →
      (hubBroadcastAll msgs s).clients[i]? =
        some { c with send := c.send ++ msgs.map serializeMessage } := by
  induction msgs with
  | nil =>
      intro s i c hi hcap
      simpa [hubBroadcastAll] using hi
  | cons m rest ih =>
      intro s i c hi hcap
      have hlt : c.send.length < c.cap := by
        simp only [List.length_cons] at hcap
        omega
      have hstep := hubBroadcast_clients_get m s i c hi
      rw [trySend, if_pos hlt] at hstep
      have h2 := ih (hubBroadcast m s) i _ hstep
        (by simp at hcap ⊢; omega)
      rw [hubBroadcastAll]
      simpa [List.append_assoc] using h2

/-- C5: For one call to Hub broadcast with message m, every observer
registered at that moment whose outbound queue has free capacity receives
exactly one copy of the serialized m (appended after its queued messages);
a sequence of broadcasts is enqueued to each observer in broadcast order;
and an observer whose queue is full at delivery time receives nothing and
is scheduled for unregistration rather than blocking the broadcaster. -/
theorem hub_broadcast_fanout (s : HubState) (m : WsMessage) (i : Nat) (c : WsClient)
    (hi : s.clients[i]? = some c) :
    (c.send.length < c.cap →
      (hubBroadcast m s).clients[i]? =
        some { c with send := c.send ++ [serializeMessage m] }) ∧
    (¬ c.send.length < c.cap →
      (hubBroadcast m s).clients[i]? = some c ∧
      c.id ∈ (hubBroadcast m s).pendingUnregister) ∧
    (∀ msgs : List WsMessage, c.send.length + msgs.length ≤ c.cap →
      (hubBroadcastAll msgs s).clients[i]? =
        some { c with send := c.send ++ msgs.map serializeMessage }) := by
  refine ⟨?_, ?_, fun msgs hcap => hubBroadcastAll_free_queue msgs s i c hi hcap⟩
  · intro hlt
    have h := hubBroadcast_clients_get m s i c hi
    rwa [trySend, if_pos hlt] at h
  · intro hge
    have h := hubBroadcast_clients_get m s i c hi
    rw [trySend, if_neg hge] at h
    refine ⟨h, ?_⟩
    have hc : c ∈ s.clients := List.getElem?_mem hi
    rw [hubBroadcast]
    refine List.mem_append.mpr (Or.inr ?_)
    refine List.mem_map.mpr ⟨c, ?_, rfl⟩
    refine List.mem_filter.mpr ⟨hc, ?_⟩
    simp [trySend, hge]

/-- A hub with one free-capacity client and one zero-capacity client. -/
def c5DemoState : HubState :=
  { clients := [⟨1, 2, []⟩, ⟨2, 0, []⟩], pendingUnregister := [] }

/-- A demo message. -/
def c5DemoMsg : WsMessage := { type := "check_result", payload := .str "ok" }

/-- Witness for C5 at a concrete hub state: the free client receives the
serialized message, the full client is untouched and scheduled for
unregistration, and two broadcasts arrive in order. -/
theorem hub_broadcast_fanout_witness :
    ((hubBroadcast c5DemoMsg c5DemoState).clients[0]? =
      some ⟨1, 2, [serializeMessage c5DemoMsg]⟩) ∧
    ((hubBroadcast c5DemoMsg c5DemoState).clients[1]? = some ⟨2, 0, []⟩ ∧
      2 ∈ (hubBroadcast c5DemoMsg c5DemoState).pendingUnregister) ∧
    ((hubBroadcastAll [c5DemoMsg, c5DemoMsg] c5DemoState).clients[0]? =
      some ⟨1, 2, [serializeMessage c5DemoMsg, serializeMessage c5DemoMsg]⟩) := by
  have h1 := hub_broadcast_fanout c5DemoState c5DemoMsg 0 ⟨1, 2, []⟩ rfl
  have h2 := hub_broadcast_fanout c5DemoState c5DemoMsg 1 ⟨2, 0, []⟩ rfl
  exact ⟨h1.1 (by decide), h2.2.1 (by decide), h1.2.2 [c5DemoMsg, c5DemoMsg] (by decide)⟩

/-! ## Watch-bridge backoff lemmas -/

theorem watchSleeps_crdNotFound (n : Nat) : ∀ b,
    watchSleeps b (List.replicate n .crdNotFound) = List.replicate n watchBackoffCap := by
  induction n with
  | zero => intro b; rfl
  | succ k ih =>
      intro b
      simp only [List.replicate_succ, watchSleeps, watchStep, watchBackoffCap]
      norm_num
      exact ih 60

theorem watchSleeps_otherFailure_bounds (n : Nat) : ∀ b, b ≤ watchBackoffCap →
    (∀ d ∈ watchSleeps b (List.replicate n .otherFailure), b ≤ d ∧ d ≤ watchBackoffCap) ∧
    List.Chain' (· ≤ ·) (watchSleeps b (List.replicate n .otherFailure)) := by
  induction n with
  | zero =>
      intro b hb
      exact ⟨fun d hd => absurd hd (by simp [watchSleeps]), by simp [watchSleeps]⟩
  | succ k ih =>
      intro b hb
      have hunf : watchSleeps b (List.replicate (k + 1) .otherFailure) =
          b :: watchSleeps (if b * 2 > watchBackoffCap then watchBackoffCap else b * 2)
            (List.replicate k .otherFailure) := by
        simp [List.replicate_succ, watchSleeps, watchStep]
      set b2 := if b * 2 > watchBackoffCap then watchBackoffCap else b * 2 with hb2
      have hb2le : b2 ≤ watchBackoffCap := by rw [hb2]; split <;> omega
      have hbb2 : b ≤ b2 := by rw [hb2]; split <;> omega
      obtain ⟨hmem, hchain⟩ := ih b2 hb2le
      rw [hunf]
      constructor
      · intro d hd
        rcases List.mem_cons.mp hd with rfl | hmem'
        · exact ⟨le_refl _, hb⟩
        · obtain ⟨h1, h2⟩ := hmem d hmem'
          exact ⟨le_trans hbb2 h1, h2⟩
      · rw [List.chain'_cons']
        refine ⟨fun h hh => ?_, hchain⟩
        exact le_trans hbb2 (hmem h (List.mem_of_mem_head? hh)).1

/-- C6: In the watch bridge's per-resource retry loop, after any number of
consecutive CRD-not-found open failures every sleep interval equals the
fixed 60-second value (it does not grow); after any number of consecutive
other-kind open failures starting from the 1-second base the sleep
intervals are non-decreasing and never exceed the 60-second cap; and a
successful open sleeps nothing and resets the interval to the base. -/
theorem watch_backoff_policy :
    (∀ b n, watchSleeps b (List.replicate n .crdNotFound) =
      List.replicate n watchBackoffCap) ∧
    (∀ n, List.Chain' (· ≤ ·)
        (watchSleeps watchBackoffBase (List.replicate n .otherFailure)) ∧
      ∀ d ∈ watchSleeps watchBackoffBase (List.replicate n .otherFailure),
        d ≤ watchBackoffCap) ∧
    (∀ b, watchStep b .success = (none, watchBackoffBase)) := by
  refine ⟨fun b n => watchSleeps_crdNotFound n b, fun n => ?_, fun b => rfl⟩
  have h := watchSleeps_otherFailure_bounds n watchBackoffBase (by decide)
  exact ⟨h.2, fun d hd => (h.1 d hd).2⟩

/-- Witness for C6: three CRD-not-found failures each sleep the long fixed
interval; an interval occurring after other-kind failures from the base is
within the cap; success resets the backoff. -/
theorem watch_backoff_policy_witness :
    (watchSleeps watchBackoffBase (List.replicate 3 WatchOutcome.crdNotFound) =
      List.replicate 3 watchBackoffCap) ∧
    (4 : Nat) ≤ watchBackoffCap ∧
    watchStep 37 WatchOutcome.success = (none, watchBackoffBase) :=
  ⟨watch_backoff_policy.1 watchBackoffBase 3,
   (watch_backoff_policy.2.1 9).2 4 (by decide),
   watch_backoff_policy.2.2 37⟩

/-! ## Batch-apply lemmas -/

theorem applyBySeverityActions_mc_wait (severity : String) :
    ∀ (rems : List RemediationInfo) (i : Nat) (n : String),
      (applyBySeverityActions severity rems)[i]? =
        some (.applyAttempt n "MachineConfig") →
      ∃ role, (applyBySeverityActions severity rems)[i + 1]? =
        some (.mcpWait role mcpWaitTimeoutSec mcpWaitPollSec) := by
  intro rems
  induction rems with
  | nil =>
      intro i n h
      simp [applyBySeverityActions] at h
  | cons r rest ih =>
      intro i n h
      by_cases hs : r.severity = severity
      · by_cases hk : r.kind = "MachineConfig"
        · rw [applyBySeverityActions, if_neg (by simp [hs]), if_pos hk,
            List.singleton_append] at h ⊢
          rcases i with _ | i
          · exact ⟨r.role, by simp⟩
          rcases i with _ | j
          · simp at h
          · simp only [List.getElem?_cons_succ] at h ⊢
            exact ih j n h
        · rw [applyBySeverityActions, if_neg (by simp [hs]), if_neg hk,
            List.nil_append] at h ⊢
          rcases i with _ | j
          · rw [List.getElem?_cons_zero] at h
            simp only [Option.some.injEq, BatchAction.applyAttempt.injEq] at h
            exact absurd h.2 hk
          · simp only [List.getElem?_cons_succ] at h ⊢
            exact ih j n h
      · rw [applyBySeverityActions, if_pos hs] at h ⊢
        exact ih i n h

theorem applyBySeverityActions_names (severity : String) (rems : List RemediationInfo) :
    (applyBySeverityActions severity rems).filterMap attemptName =
      (rems.filter fun r => r.severity = severity).map fun r => r.name := by
  induction rems with
  | nil => rfl
  | cons r rest ih =>
      by_cases hs : r.severity = severity
      · rw [applyBySeverityActions, if_neg (by simp [hs])]
        by_cases hk : r.kind = "MachineConfig"
        · rw [if_pos hk]
          simp [attemptName, List.filter_cons, hs, ih]
        · rw [if_neg hk]
          simp [attemptName, List.filter_cons, hs, ih]
      · rw [applyBySeverityActions, if_pos hs]
        simp [List.filter_cons, hs, ih]

/-- C7: ApplyBySeverity attempts exactly the listed remediations whose
severity equals the requested severity, in list order (all others are
skipped with no apply attempt), and immediately after every attempt on a
MachineConfig remediation — successful or failed — the next action is the
machine-config-pool convergence poll (bounded to 600 seconds, polling
every 30 seconds, returning without error on timeout) before any further
remediation is attempted. -/
theorem applyBySeverity_filter_throttle (severity : String)
    (rems : List RemediationInfo) :
    ((applyBySeverityActions severity rems).filterMap attemptName =
      (rems.filter fun r => r.severity = severity).map fun r => r.name) ∧
    (∀ i n, (applyBySeverityActions severity rems)[i]? =
        some (.applyAttempt n "MachineConfig") →
      ∃ role, (applyBySeverityActions severity rems)[i + 1]? =
        some (.mcpWait role mcpWaitTimeoutSec mcpWaitPollSec)) :=
  ⟨applyBySeverityActions_names severity rems,
   fun i n h => applyBySeverityActions_mc_wait severity rems i n h⟩

/-- Three remediations of mixed severities, one of them a MachineConfig. -/
def c7DemoRems : List RemediationInfo :=
  [{ name := "rem-mc", kind := "MachineConfig", severity := "high", role := "worker" },
   { name := "rem-cm", kind := "ConfigMap", severity := "high", role := "" },
   { name := "rem-low", kind := "MachineConfig", severity := "low", role := "master" }]

/-- Witness for C7 at a concrete remediation list: only the high-severity
items are attempted and the MachineConfig attempt is followed by the pool
wait. -/
theorem applyBySeverity_filter_throttle_witness :
    ((applyBySeverityActions "high" c7DemoRems).filterMap attemptName =
      ["rem-mc", "rem-cm"]) ∧
    (∃ role, (applyBySeverityActions "high" c7DemoRems)[0 + 1]? =
      some (BatchAction.mcpWait role mcpWaitTimeoutSec mcpWaitPollSec)) := by
  constructor
  · rw [(applyBySeverity_filter_throttle "high" c7DemoRems).1]
    decide
  · exact (applyBySeverity_filter_throttle "high" c7DemoRems).2 0 "rem-mc" rfl

/-! ## Remove-remediation and watch-data claims -/

/-- C8: RemoveRemediation on a remediation whose target object no longer
exists (the delete returns "not found") returns a RemediationResult with
applied=false, the "was already removed" message, an empty error field, and
a nil Go error. -/
theorem removeRemediation_already_removed (env : RemoveEnv) (rem : JValue)
    (fs : List (String × JValue)) (e : String)
    (hget : env.remGet = .ok rem)
    (hobj : nestedField rem ["spec", "current", "object"] = some (.obj fs))
    (hkind : nestedString (.obj fs) ["kind"] ≠ "")
    (hav : nestedString (.obj fs) ["apiVersion"] ≠ "")
    (hdel : env.deleteErr = some e)
    (hnf : goContains e "not found" = true) :
    removeRemediation env =
      ({ name := env.name
         applied := false
         message := "Object " ++ nestedString (.obj fs) ["kind"] ++ " " ++
           (if nestedString (.obj fs) ["metadata", "name"] = "" then env.name
            else nestedString (.obj fs) ["metadata", "name"]) ++
           " was already removed"
         error := "" }, none) := by
  rw [removeRemediation, hget]
  simp only [hobj, hdel]
  rw [if_neg (by simp [hkind, hav]), if_pos hnf]

/-- A remediation whose MachineConfig target was already deleted. -/
def c8DemoEnv : RemoveEnv :=
  { namespace_ := "openshift-compliance"
    name := "rem-1"
    remGet := .ok (JValue.obj [("spec", .obj [("current", .obj [("object", .obj
      [("kind", .str "MachineConfig"),
       ("apiVersion", .str "machineconfiguration.openshift.io/v1")])])])])
    deleteErr :=
      some "machineconfigs.machineconfiguration.openshift.io \"rem-1\" not found" }

/-- Witness for C8 at a concrete already-removed remediation. -/
theorem removeRemediation_already_removed_witness :
    removeRemediation c8DemoEnv =
      ({ name := "rem-1", applied := false,
         message := "Object MachineConfig rem-1 was already removed",
         error := "" }, none) := by
  have h := removeRemediation_already_removed c8DemoEnv
    (JValue.obj [("spec", .obj [("current", .obj [("object", .obj
      [("kind", .str "MachineConfig"),
       ("apiVersion", .str "machineconfiguration.openshift.io/v1")])])])])
    [("kind", .str "MachineConfig"),
     ("apiVersion", .str "machineconfiguration.openshift.io/v1")]
    "machineconfigs.machineconfiguration.openshift.io \"rem-1\" not found"
    rfl rfl (by decide) (by decide) rfl (by decide)
  rw [h]
  decide

/-- C10: For every ComplianceRemediation watch event, the broadcast data's
"applied" field is true exactly when the object's spec.apply is the JSON
*string* "true"; in particular, after ApplyRemediation marks a remediation
applied by writing the boolean true into spec.apply, the watch event
reports applied=false. -/
theorem remediation_watch_applied_semantics :
    (∀ obj : JValue,
      lookupField (extractRelevantData "ComplianceRemediation" obj) "applied" =
        some (.bool (nestedString obj ["spec", "apply"] = "true"))) ∧
    (∀ rem rem' : JValue, applyMarkApplied rem = some rem' →
      lookupField (extractRelevantData "ComplianceRemediation" rem') "applied" =
        some (.bool false)) := by
  constructor
  · intro obj
    simp [extractRelevantData, lookupField]
  · intro rem rem' h
    have hfield : nestedField rem' ["spec", "apply"] = some (.bool true) :=
      nestedField_setNestedField rem _ _ _ h
    have hstr : nestedString rem' ["spec", "apply"] = "" := by
      rw [nestedString, hfield]
    simp [extractRelevantData, lookupField, hstr]

/-- Witness for C10: applying the mark-applied write to a concrete
remediation CR makes the broadcast data report applied=false. -/
theorem remediation_watch_applied_witness :
    lookupField
      (extractRelevantData "ComplianceRemediation"
        (JValue.obj [("spec", JValue.obj [("apply", JValue.bool true)])]))
      "applied" = some (JValue.bool false) :=
  remediation_watch_applied_semantics.2
    (JValue.obj [("spec", JValue.obj [("apply", JValue.str "false")])])
    (JValue.obj [("spec", JValue.obj [("apply", JValue.bool true)])]) rfl

end ComplianceDashboard
